import Mathlib

namespace DrawTogether

/-! # JSON values

The wire protocol of the application is JSON text. `JVal` models the result
of a successful `JSON.parse`; an unparsable message is modelled as `none`
at the call sites (`Option JVal`). Numbers are modelled as rationals. -/

mutual
/-- JSON values as produced by a successful JSON.parse: null, booleans,
numbers (modelled as rationals), strings, arrays and objects. -/
inductive JVal where
  | jnull : JVal
  | jbool : Bool → JVal
  | jnum : ℚ → JVal
  | jstr : String → JVal
  | jarr : JArr → JVal
  | jobj : JObj → JVal
deriving DecidableEq

/-- A JSON array: a list of JSON values. -/
inductive JArr where
  | nil : JArr
  | cons : JVal → JArr → JArr
deriving DecidableEq

/-- A JSON object: an ordered list of key/value fields. -/
inductive JObj where
  | nil : JObj
  | cons : String → JVal → JObj → JObj
deriving DecidableEq
end

/-- Convert a Lean list of JSON values to a JSON array. -/
def JArr.ofList : List JVal → JArr
  | [] => JArr.nil
  | v :: vs => JArr.cons v (JArr.ofList vs)

/-- Convert a JSON array to a Lean list of its elements. -/
def JArr.toList : JArr → List JVal
  | JArr.nil => []
  | JArr.cons v vs => v :: JArr.toList vs

/-- Look a key up in a JSON object, returning the LAST binding, matching
what JSON.parse followed by JavaScript property access yields when a key
is duplicated. `none` means the property is absent (undefined). -/
def JObj.lookupLast : JObj → String → Option JVal
  | JObj.nil, _ => none
  | JObj.cons k v tl, key =>
    match JObj.lookupLast tl key with
    | some r => some r
    | none => if k = key then some v else none

/-- JavaScript property access `v.key` on a parsed JSON value that is not
null: objects yield the field (or undefined, modelled as `none`); every
other non-null value yields undefined. Callers deal with the null case
(where property access throws a TypeError) separately, before calling
this. -/
def jpropD : JVal → String → Option JVal
  | JVal.jobj o, key => JObj.lookupLast o key
  | _, _ => none

/-- JavaScript truthiness of a parsed JSON value: null, false, 0 and the
empty string are falsy; every other JSON value is truthy. -/
def jTruthy : JVal → Bool
  | JVal.jnull => false
  | JVal.jbool b => b
  | JVal.jnum q => decide (q ≠ 0)
  | JVal.jstr s => decide (s ≠ "")
  | JVal.jarr _ => true
  | JVal.jobj _ => true

/-- JavaScript truthiness of a possibly-undefined value (`none` models
undefined, which is falsy). -/
def jTruthyO : Option JVal → Bool
  | none => false
  | some v => jTruthy v

/-! # Server (src/packages/server/server.ts)

The server keeps a global `strokes` array and the set of connected
sockets (`wss.clients`). A connected socket is modelled by its identity
and whether `readyState === WebSocket.OPEN`. Outbound traffic is modelled
as a list of (socket id, JSON payload) pairs, in send order. -/

/-- A socket tracked by the WebSocket server: its identity and whether its
readyState is OPEN. -/
structure SClient where
  cid : Nat
  isOpen : Bool
deriving DecidableEq

/-- The server's mutable state: the global `strokes` array and the set of
connected sockets `wss.clients` (in insertion order). -/
structure ServerState where
  strokes : List JVal
  clients : List SClient
deriving DecidableEq

/-- The JSON payload the server broadcasts for a finalized stroke:
`JSON.stringify({ type: 'stroke', stroke: data.stroke })`. Note that it
carries no clientId/senderId field. -/
def relayMsg (sv : JVal) : JVal :=
  JVal.jobj (JObj.cons "type" (JVal.jstr "stroke")
    (JObj.cons "stroke" sv JObj.nil))

/-- The JSON payload the server sends to a freshly connected socket:
`JSON.stringify({ type: 'history', strokes })`. -/
def historyMsg (strokes : List JVal) : JVal :=
  JVal.jobj (JObj.cons "type" (JVal.jstr "history")
    (JObj.cons "strokes" (JVal.jarr (JArr.ofList strokes)) JObj.nil))

/-- The server's `ws.on('message', ...)` handler. The input is the result
of `JSON.parse` on the received text (`none` when parsing throws, which
the handler catches and ignores). The result is `none` when the handler
itself throws an uncaught exception (crashing the process): this happens
exactly when the parsed value is JSON null, because `data.type` is
evaluated outside the try/catch and property access on null throws a
TypeError. Otherwise the result is the updated state plus the list of
(socket id, payload) sends, one per OPEN client, issued only for messages
with `data.type === 'stroke'` and a truthy `data.stroke`. -/
def serverHandleMessage (st : ServerState) (raw : Option JVal) :
    Option (ServerState × List (Nat × JVal)) :=
  match raw with
  | none => some (st, [])
  | some JVal.jnull => none
  | some data =>
    if jpropD data "type" = some (JVal.jstr "stroke") then
      match jpropD data "stroke" with
      | some sv =>
        if jTruthy sv then
          some ({ strokes := st.strokes ++ [sv], clients := st.clients },
            (st.clients.filter (fun c => c.isOpen)).map
              (fun c => (c.cid, relayMsg sv)))
        else some (st, [])
      | none => some (st, [])
    else some (st, [])

/-- The server's `wss.on('connection', ...)` handler: the new socket joins
`wss.clients` and immediately, synchronously, receives the history
snapshot as its first message, before the message listener for that
socket can deliver anything else. -/
def serverHandleConnection (st : ServerState) (c : SClient) :
    ServerState × List (Nat × JVal) :=
  ({ strokes := st.strokes, clients := st.clients ++ [c] },
   [(c.cid, historyMsg st.strokes)])

/-- Run the server's message handler over a sequence of inbound parsed
messages, in arrival order, threading state and concatenating the sends;
`none` when some message crashes the process. -/
def serverRun (st : ServerState) :
    List (Option JVal) → Option (ServerState × List (Nat × JVal))
  | [] => some (st, [])
  | m :: ms =>
    match serverHandleMessage st m with
    | none => none
    | some (st1, outs) =>
      match serverRun st1 ms with
      | none => none
      | some (st2, outs2) => some (st2, outs ++ outs2)

/-- The payloads a given socket receives, in order, from a list of sends. -/
def sentTo (cid : Nat) (outs : List (Nat × JVal)) : List JVal :=
  (outs.filter (fun p => p.1 = cid)).map (fun p => p.2)

/-! # Client sync engine (src/packages/client/src/main.ts, ws message listener)

The client keeps `strokes` (authoritative history), `remoteStrokes`
(a Map from sender clientId to that sender's latest in-progress stroke)
and its own `clientId` string. A JavaScript Map is modelled as an
association list with Map semantics (`set` overwrites in place or
appends, `delete` removes, keyed by value equality). Map keys are JSON
values because the code uses the untrusted `data.clientId` field as the
key directly. -/

/-- JavaScript `Map.prototype.set`: overwrite the existing entry in place
if the key is present, otherwise append a new entry. -/
def mapSet {α β : Type} [DecidableEq α] (m : List (α × β)) (k : α) (v : β) :
    List (α × β) :=
  if m.any (fun p => p.1 = k) then
    m.map (fun p => if p.1 = k then (k, v) else p)
  else m ++ [(k, v)]

/-- JavaScript `Map.prototype.delete`: remove the entry with the given
key, if any. -/
def mapDelete {α β : Type} [DecidableEq α] (m : List (α × β)) (k : α) :
    List (α × β) :=
  m.filter (fun p => ¬ (p.1 = k))

/-- JavaScript `Map.prototype.has`. -/
def mapHas {α β : Type} [DecidableEq α] (m : List (α × β)) (k : α) : Bool :=
  m.any (fun p => p.1 = k)

/-- The client sync engine's state: the authoritative `strokes` pool, the
`remoteStrokes` Preview Table, and this client's own `clientId`. -/
structure ClientState where
  strokes : List JVal
  remoteStrokes : List (JVal × JVal)
  selfId : String
deriving DecidableEq

/-- The client's `ws.addEventListener('message', ...)` handler. The input
is the result of `JSON.parse` on the received text (`none` when parsing
throws). The whole body sits inside a try/catch, so a TypeError from
`data.type` on a null payload is caught and leaves the state unchanged.
Three sequential, non-exclusive branches: a `stroke` message appends
`data.stroke` to history and deletes `data.clientId` from the Preview
Table when that field is truthy; a `stroke-update` message from a truthy
clientId different from our own upserts the Preview Table; a `history`
message with an array `strokes` field replaces history wholesale and
clears the Preview Table. -/
def clientHandle (st : ClientState) (raw : Option JVal) : ClientState :=
  match raw with
  | none => st
  | some JVal.jnull => st
  | some data =>
    let st1 :=
      if jpropD data "type" = some (JVal.jstr "stroke")
          ∧ jTruthyO (jpropD data "stroke") = true then
        { st with
          strokes := st.strokes ++ [(jpropD data "stroke").getD JVal.jnull],
          remoteStrokes :=
            if jTruthyO (jpropD data "clientId") = true then
              mapDelete st.remoteStrokes ((jpropD data "clientId").getD JVal.jnull)
            else st.remoteStrokes }
      else st
    let st2 :=
      if jpropD data "type" = some (JVal.jstr "stroke-update")
          ∧ jTruthyO (jpropD data "stroke") = true
          ∧ jTruthyO (jpropD data "clientId") = true
          ∧ ¬ (jpropD data "clientId" = some (JVal.jstr st.selfId)) then
        { st1 with
          remoteStrokes :=
            mapSet st1.remoteStrokes
              ((jpropD data "clientId").getD JVal.jnull)
              ((jpropD data "stroke").getD JVal.jnull) }
      else st1
    let st3 :=
      match jpropD data "strokes" with
      | some (JVal.jarr l) =>
        if jpropD data "type" = some (JVal.jstr "history") then
          { st2 with strokes := JArr.toList l, remoteStrokes := [] }
        else st2
      | _ => st2
    st3

/-- Run the client's message handler over a sequence of inbound parsed
messages, in arrival order. -/
def clientRun (st : ClientState) : List (Option JVal) → ClientState
  | [] => st
  | m :: ms => clientRun (clientHandle st m) ms

/-! # Client gesture handling and preview publication
(src/packages/client/src/main.ts, pointer event handlers)

Pointer handlers mutate `activePointers` (a Map from pointerId to last
screen position), `currentStroke` (the local in-progress stroke),
`updateInterval` (the id returned by the last `window.setInterval`, or
null) and `lastPan`. `liveIntervals` records which interval timers are
currently registered with the browser: `setInterval` adds one,
`clearInterval` removes one; an id dropped from `updateInterval` without
a `clearInterval` stays live and keeps firing. Viewport scalars
(scale/offset) are presentation state outside the synchronization core
and are not modelled; the world-space position a handler derives from an
event is therefore taken as an input. -/

/-- A point in screen or world space. -/
structure Point where
  x : ℚ
  y : ℚ
deriving DecidableEq

/-- A stroke: its ordered points, color and width. -/
structure Stroke where
  points : List Point
  color : String
  width : ℚ
deriving DecidableEq

/-- A message the drawing client sends to the server: a periodic
`stroke-update` preview or the final `stroke` message, each carrying the
stroke and the sender's clientId. -/
inductive ClientSend where
  | strokeUpdate : Stroke → String → ClientSend
  | strokeFinal : Stroke → String → ClientSend
deriving DecidableEq

/-- The client's gesture-related mutable state. -/
structure GestureState where
  activePointers : List (Nat × Point)
  currentStroke : Option Stroke
  updateInterval : Option Nat
  liveIntervals : List Nat
  lastPan : Option Point
deriving DecidableEq

/-- The `pointerdown` handler: record the pointer's position; when it is
the only active pointer and the button is the primary one, start a new
stroke at the event's world position with a random color and width 3,
and start a fresh 250ms preview interval whose id is stored in
`updateInterval`. A previously stored interval id is overwritten without
being cleared, so it stays live. -/
def pointerdown (g : GestureState) (pid : Nat) (screenPos : Point)
    (button : Nat) (worldPos : Point) (color : String) (freshId : Nat) :
    GestureState :=
  let aps := mapSet g.activePointers pid screenPos
  if aps.length = 1 ∧ button = 0 then
    { g with activePointers := aps,
             currentStroke := some { points := [worldPos], color := color, width := 3 },
             updateInterval := some freshId,
             liveIntervals := g.liveIntervals ++ [freshId] }
  else { g with activePointers := aps }

/-- The body of the preview interval callback, shared by every interval
the client ever registers: if a stroke is in progress, send it as a
`stroke-update` preview; otherwise send nothing. It runs whenever any id
in `liveIntervals` fires. -/
def timerFire (g : GestureState) (cid : String) : List ClientSend :=
  match g.currentStroke with
  | some s => [ClientSend.strokeUpdate s cid]
  | none => []

/-- The `pointermove` handler: ignore unknown pointers; with a single
active pointer and a stroke in progress, append the event's world
position to the stroke; with exactly two active pointers, perform the
pinch gesture (viewport effects not modelled) and record the screen
midpoint of the two pointers in `lastPan`. -/
def pointermove (g : GestureState) (pid : Nat) (screenPos : Point)
    (worldPos : Point) : GestureState :=
  if g.activePointers.any (fun p => p.1 = pid) then
    let aps := mapSet g.activePointers pid screenPos
    if aps.length = 1 ∧ g.currentStroke.isSome then
      { g with activePointers := aps,
               currentStroke := g.currentStroke.map
                 (fun s => { s with points := s.points ++ [worldPos] }) }
    else if aps.length = 2 then
      match aps with
      | [p1, p2] =>
        { g with activePointers := aps,
                 lastPan := some { x := (p1.2.x + p2.2.x) / 2,
                                   y := (p1.2.y + p2.2.y) / 2 } }
      | _ => { g with activePointers := aps }
    else { g with activePointers := aps }
  else g

/-- The `pointerup` handler: drop the pointer; if a stroke is in
progress, send exactly one final `stroke` message carrying its complete
point sequence; then discard the in-progress stroke and `lastPan`, and
when `updateInterval` holds a truthy id, clear that interval (it stops
firing) and null the reference. -/
def pointerup (g : GestureState) (pid : Nat) (cid : String) :
    GestureState × List ClientSend :=
  let aps := mapDelete g.activePointers pid
  let outs := match g.currentStroke with
    | some s => [ClientSend.strokeFinal s cid]
    | none => []
  let base : GestureState :=
    { g with activePointers := aps, currentStroke := none, lastPan := none }
  match g.updateInterval with
  | some tid =>
    if tid ≠ 0 then
      ({ base with updateInterval := none,
                   liveIntervals := base.liveIntervals.filter (fun i => ¬ (i = tid)) },
       outs)
    else (base, outs)
  | none => (base, outs)

/-- The `pointercancel` handler: it only removes the pointer from
`activePointers`; it does not touch `currentStroke`, `updateInterval` or
`liveIntervals`. -/
def pointercancel (g : GestureState) (pid : Nat) : GestureState :=
  { g with activePointers := mapDelete g.activePointers pid }

/-! # Derived notions and concrete fixtures -/

/-- The stroke payload a parsed message carries (`data.stroke`); defaults
to null when absent, which no caller hits on the paths where it is used. -/
def strokeOf (m : JVal) : JVal := (jpropD m "stroke").getD JVal.jnull

/-- The sends the server's stroke branch issues: one relay payload per
client whose readyState is OPEN, in `wss.clients` order. -/
def broadcastOuts (cs : List SClient) (sv : JVal) : List (Nat × JVal) :=
  (cs.filter (fun a => a.isOpen)).map (fun a => (a.cid, relayMsg sv))

/-- All sends produced by a run of stroke messages: the per-message
broadcasts concatenated in arrival order. -/
def serverOutsFor (cs : List SClient) : List JVal → List (Nat × JVal)
  | [] => []
  | m :: ms => broadcastOuts cs (strokeOf m) ++ serverOutsFor cs ms

/-- The JSON message a client sends during a gesture:
`{ type: "stroke-update", stroke, clientId }`. -/
def strokeUpdateMsg (sv : JVal) (cid : String) : JVal :=
  JVal.jobj (JObj.cons "type" (JVal.jstr "stroke-update")
    (JObj.cons "stroke" sv (JObj.cons "clientId" (JVal.jstr cid) JObj.nil)))

/-- The JSON message a client sends on gesture completion:
`{ type: "stroke", stroke, clientId }`. -/
def clientStrokeMsg (sv : JVal) (cid : String) : JVal :=
  JVal.jobj (JObj.cons "type" (JVal.jstr "stroke")
    (JObj.cons "stroke" sv (JObj.cons "clientId" (JVal.jstr cid) JObj.nil)))

/-- A serialized two-point stroke, as in the spec's scenario. -/
def sampleStroke : JVal :=
  JVal.jobj (JObj.cons "points"
    (JVal.jarr (JArr.cons
      (JVal.jobj (JObj.cons "x" (JVal.jnum 0) (JObj.cons "y" (JVal.jnum 0) JObj.nil)))
      (JArr.cons
        (JVal.jobj (JObj.cons "x" (JVal.jnum 1) (JObj.cons "y" (JVal.jnum 1) JObj.nil)))
        JArr.nil)))
    (JObj.cons "color" (JVal.jstr "#ff0000")
      (JObj.cons "width" (JVal.jnum 3) JObj.nil)))

/-- A second serialized stroke, distinct from `sampleStroke`. -/
def sampleStroke2 : JVal :=
  JVal.jobj (JObj.cons "points"
    (JVal.jarr (JArr.cons
      (JVal.jobj (JObj.cons "x" (JVal.jnum 2) (JObj.cons "y" (JVal.jnum 2) JObj.nil)))
      JArr.nil))
    (JObj.cons "color" (JVal.jstr "#00ff00")
      (JObj.cons "width" (JVal.jnum 3) JObj.nil)))

/-- A server with an empty log and two open sockets, ids 0 and 1; socket
0 plays the originating sender, socket 1 another participant. -/
def twoClientServer : ServerState :=
  { strokes := [],
    clients := [{ cid := 0, isOpen := true }, { cid := 1, isOpen := true }] }

/-- A participant with empty pools and its own clientId "b7". -/
def clientB : ClientState :=
  { strokes := [], remoteStrokes := [], selfId := "b7" }

/-- A server that already finalized two strokes, with one open socket. -/
def serverWithHistory : ServerState :=
  { strokes := [sampleStroke, sampleStroke2],
    clients := [{ cid := 0, isOpen := true }] }

/-- A participant holding stale state in both pools, to exercise the
wholesale replacement a history snapshot performs. -/
def staleClient : ClientState :=
  { strokes := [sampleStroke],
    remoteStrokes := [(JVal.jstr "z9", sampleStroke2)], selfId := "b7" }

/-- A server with two open sockets and one whose readyState is not OPEN. -/
def threeClientServer : ServerState :=
  { strokes := [],
    clients := [{ cid := 0, isOpen := true }, { cid := 1, isOpen := true },
                { cid := 2, isOpen := false }] }

/-- A parsed message with a type field but no stroke field. -/
def missingFieldMsg : JVal :=
  JVal.jobj (JObj.cons "type" (JVal.jstr "stroke") JObj.nil)

/-- The idle gesture state: no pointers, no stroke, no timers. -/
def emptyGesture : GestureState :=
  { activePointers := [], currentStroke := none, updateInterval := none,
    liveIntervals := [], lastPan := none }

/-- The gesture state right after a primary-button pointerdown started a
stroke at world position (10, 20) and registered preview interval 7. -/
def gestureStart : GestureState :=
  pointerdown emptyGesture 1 { x := 10, y := 20 } 0 { x := 10, y := 20 } "#abc123" 7

/-- A gesture state mid-drawing with a second pointer also down: pointer 1
started the stroke, pointer 2 joined (as in a pinch), preview interval 7
is live. -/
def gTwoPointers : GestureState :=
  { activePointers := [(1, { x := 0, y := 0 }), (2, { x := 5, y := 5 })],
    currentStroke := some { points := [{ x := 0, y := 0 }], color := "#ff0000", width := 3 },
    updateInterval := some 7, liveIntervals := [7], lastPan := none }

/-- Modelled from the spec: whether a JSON object is a point, i.e. has
numeric x and y fields (spec wire form `{x: number, y: number}`). -/
def isPointObj : JVal → Bool
  | JVal.jobj o =>
    (match JObj.lookupLast o "x" with
     | some (JVal.jnum _) => true
     | _ => false) &&
    (match JObj.lookupLast o "y" with
     | some (JVal.jnum _) => true
     | _ => false)
  | _ => false

/-- Whether every element of a JSON array satisfies a predicate. -/
def jarrAll (p : JVal → Bool) : JArr → Bool
  | JArr.nil => true
  | JArr.cons v vs => p v && jarrAll p vs

/-- Modelled from the spec: structural well-formedness of a serialized
Stroke, following the serialized form the spec gives
(`{ points: [{x, y}, ...], color: string, width: number }` with positive
width). This is the validation the claim says `append` performs; it is
deliberately written from the spec wording, to be compared against what
the server code actually checks. -/
def wellFormedStroke : JVal → Bool
  | JVal.jobj o =>
    (match JObj.lookupLast o "points" with
     | some (JVal.jarr a) => jarrAll isPointObj a
     | _ => false) &&
    (match JObj.lookupLast o "color" with
     | some (JVal.jstr _) => true
     | _ => false) &&
    (match JObj.lookupLast o "width" with
     | some (JVal.jnum w) => decide (0 < w)
     | _ => false)
  | _ => false

/-! # Helper lemmas -/

/-- Converting a list to a JSON array and back is the identity. -/
theorem jarr_toList_ofList (l : List JVal) : JArr.toList (JArr.ofList l) = l := by
  induction l with
  | nil => rfl
  | cons v vs ih => simp [JArr.ofList, JArr.toList, ih]

/-- A truthy optional value is present and its payload is truthy. -/
theorem jTruthyO_getD (o : Option JVal) (h : jTruthyO o = true) :
    o = some (o.getD JVal.jnull) ∧ jTruthy (o.getD JVal.jnull) = true := by
  cases o with
  | none => simp [jTruthyO] at h
  | some v => exact ⟨rfl, h⟩

/-- On a message whose type field is "stroke" and whose stroke field is
truthy, the server appends the payload and broadcasts one relay per open
client. -/
theorem serverHandleMessage_stroke (st : ServerState) (m : JVal)
    (ht : jpropD m "type" = some (JVal.jstr "stroke"))
    (hs : jTruthyO (jpropD m "stroke") = true) :
    serverHandleMessage st (some m) =
      some ({ strokes := st.strokes ++ [strokeOf m], clients := st.clients },
            broadcastOuts st.clients (strokeOf m)) := by
  cases m with
  | jobj o =>
    obtain ⟨ho, htr⟩ := jTruthyO_getD _ hs
    simp only [serverHandleMessage, ht, if_pos rfl, strokeOf, broadcastOuts]
    rw [ho]
    simp [htr]
  | jnull => simp [jpropD] at ht
  | jbool b => simp [jpropD] at ht
  | jnum q => simp [jpropD] at ht
  | jstr s => simp [jpropD] at ht
  | jarr a => simp [jpropD] at ht

/-- On any non-null message that is not a stroke message with a truthy
stroke payload, the server changes nothing and sends nothing. -/
theorem serverHandleMessage_noop (st : ServerState) (data : JVal)
    (hnn : data ≠ JVal.jnull)
    (h : ¬ (jpropD data "type" = some (JVal.jstr "stroke") ∧
            jTruthyO (jpropD data "stroke") = true)) :
    serverHandleMessage st (some data) = some (st, []) := by
  cases data with
  | jnull => exact absurd rfl hnn
  | jobj o =>
    by_cases ht : jpropD (JVal.jobj o) "type" = some (JVal.jstr "stroke")
    · cases hsv : jpropD (JVal.jobj o) "stroke" with
      | none => simp [serverHandleMessage, ht, hsv]
      | some sv =>
        simp only [ht, hsv, jTruthyO, true_and] at h
        simp [serverHandleMessage, ht, hsv, h]
    · simp [serverHandleMessage, ht]
  | jbool b => simp [serverHandleMessage, jpropD]
  | jnum q => simp [serverHandleMessage, jpropD]
  | jstr s => simp [serverHandleMessage, jpropD]
  | jarr a => simp [serverHandleMessage, jpropD]

/-- A client receiving the relay payload of a truthy stroke appends it to
history and leaves the Preview Table untouched (the relay carries no
clientId). -/
theorem clientHandle_relay (cst : ClientState) (sv : JVal) (h : jTruthy sv = true) :
    clientHandle cst (some (relayMsg sv)) =
      { strokes := cst.strokes ++ [sv], remoteStrokes := cst.remoteStrokes,
        selfId := cst.selfId } := by
  have h1 : jpropD (relayMsg sv) "type" = some (JVal.jstr "stroke") := rfl
  have h2 : jpropD (relayMsg sv) "stroke" = some sv := rfl
  have h3 : jpropD (relayMsg sv) "clientId" = none := rfl
  have h4 : jpropD (relayMsg sv) "strokes" = none := rfl
  simp +decide [clientHandle, relayMsg] at h1 h2 h3 h4 ⊢
  simp [h1, h2, h3, h4, jTruthyO, h]

/-- A client receiving a history snapshot replaces its history pool
wholesale with the snapshot contents and clears the Preview Table. -/
theorem clientHandle_history (cst : ClientState) (l : List JVal) :
    clientHandle cst (some (historyMsg l)) =
      { strokes := l, remoteStrokes := [], selfId := cst.selfId } := by
  have h1 : jpropD (historyMsg l) "type" = some (JVal.jstr "history") := rfl
  have h4 : jpropD (historyMsg l) "strokes" = some (JVal.jarr (JArr.ofList l)) := rfl
  simp +decide [clientHandle, historyMsg] at h1 h4 ⊢
  simp [h1, h4, jarr_toList_ofList]

/-- Message delivery distributes over concatenated send lists. -/
theorem sentTo_append (k : Nat) (a b : List (Nat × JVal)) :
    sentTo k (a ++ b) = sentTo k a ++ sentTo k b := by
  simp [sentTo, List.filter_append]

/-- With pairwise distinct socket ids, filtering the client list by the id
of a member keeps exactly that member. -/
theorem filter_cid_unique (cs : List SClient) (c : SClient) (hc : c ∈ cs)
    (hnd : (cs.map SClient.cid).Nodup) :
    cs.filter (fun a => a.cid = c.cid) = [c] := by
  induction cs with
  | nil => cases hc
  | cons a t ih =>
    simp only [List.map_cons, List.nodup_cons] at hnd
    obtain ⟨ha, hnd2⟩ := hnd
    rcases List.mem_cons.mp hc with rfl | hct
    · have hnil : t.filter (fun x => x.cid = c.cid) = [] := by
        rw [List.filter_eq_nil_iff]
        intro x hx
        simp only [decide_eq_true_eq]
        intro hcid
        exact ha (hcid ▸ List.mem_map_of_mem SClient.cid hx)
      simp [List.filter_cons, hnil]
    · have hne : ¬ (a.cid = c.cid) := fun he =>
        ha (he ▸ List.mem_map_of_mem SClient.cid hct)
      simp [List.filter_cons, hne, ih hct hnd2]

/-- What one broadcast delivers to a connected participant: exactly one
relay payload when its socket is open, nothing when it is not. -/
theorem sentTo_broadcastOuts (cs : List SClient) (c : SClient) (hc : c ∈ cs)
    (hnd : (cs.map SClient.cid).Nodup) (sv : JVal) :
    sentTo c.cid (broadcastOuts cs sv) =
      if c.isOpen then [relayMsg sv] else [] := by
  simp only [sentTo, broadcastOuts, List.filter_map, List.map_map]
  have hcomm : ((cs.filter (fun a => a.isOpen)).filter (fun a => a.cid = c.cid)) =
      ((cs.filter (fun a => a.cid = c.cid)).filter (fun a => a.isOpen)) := by
    simp [List.filter_filter, Bool.and_comm]
  have heq : (List.filter ((fun p => decide (p.1 = c.cid)) ∘ fun a => (a.cid, relayMsg sv))
        (cs.filter (fun a => a.isOpen))) =
      ((cs.filter (fun a => a.isOpen)).filter (fun a => a.cid = c.cid)) := rfl
  rw [heq, hcomm, filter_cid_unique cs c hc hnd]
  by_cases ho : c.isOpen <;> simp [ho]

/-- A broadcast delivers nothing to an id that is not among the connected
sockets. -/
theorem sentTo_broadcastOuts_notmem (cs : List SClient) (k : Nat)
    (hk : k ∉ cs.map SClient.cid) (sv : JVal) :
    sentTo k (broadcastOuts cs sv) = [] := by
  simp only [sentTo, broadcastOuts, List.filter_map, List.map_map]
  have hnil : (List.filter ((fun p => decide (p.1 = k)) ∘ fun a => (a.cid, relayMsg sv))
        (cs.filter (fun a => a.isOpen))) = [] := by
    rw [List.filter_eq_nil_iff]
    intro a ha
    simp only [Function.comp, decide_eq_true_eq]
    intro hcid
    exact hk (hcid ▸ List.mem_map_of_mem SClient.cid (List.mem_of_mem_filter ha))
  rw [hnil]
  rfl

/-- The message handler never sends anything to an id outside the
connected socket set (in particular, a socket that has not joined yet
receives nothing before its connection event). -/
theorem serverHandleMessage_no_send_to_stranger (st : ServerState)
    (raw : Option JVal) (k : Nat) (hk : k ∉ st.clients.map SClient.cid) :
    (serverHandleMessage st raw).elim True (fun res => sentTo k res.2 = []) := by
  cases raw with
  | none => simp [serverHandleMessage, sentTo]
  | some data =>
    by_cases hnn : data = JVal.jnull
    · subst hnn; simp [serverHandleMessage]
    · by_cases hcond : jpropD data "type" = some (JVal.jstr "stroke") ∧
          jTruthyO (jpropD data "stroke") = true
      · rw [serverHandleMessage_stroke st data hcond.1 hcond.2]
        simpa using sentTo_broadcastOuts_notmem st.clients k hk (strokeOf data)
      · rw [serverHandleMessage_noop st data hnn hcond]
        simp [sentTo]

/-- Dropping every send addressed to some other id leaves the deliveries
to this id unchanged. -/
theorem sentTo_filter_ne (k cid : Nat) (h : ¬ (k = cid)) (l : List (Nat × JVal)) :
    sentTo cid (l.filter (fun p => ¬ (p.1 = k))) = sentTo cid l := by
  simp only [sentTo, List.filter_filter]
  congr 1
  apply List.filter_congr
  intro p _
  by_cases hp : p.1 = cid
  · have hk : ¬ (p.1 = k) := fun he => h (he.symm.trans hp)
    simp [hp, hk]
    exact fun he => h he.symm
  · simp [hp]

/-- Deleting one key from a pointer map keeps any other present key. -/
theorem any_mapDelete (l : List (Nat × Point)) (p q : Nat) (hpq : ¬ (p = q))
    (hq : l.any (fun a => a.1 = q) = true) :
    (mapDelete l p).any (fun a => a.1 = q) = true := by
  simp only [List.any_eq_true, decide_eq_true_eq] at hq
  obtain ⟨a, ha, haq⟩ := hq
  have hap : ¬ (a.1 = p) := fun he => hpq (he.symm.trans haq)
  simp only [mapDelete, List.any_eq_true, List.mem_filter, decide_eq_true_eq]
  exact ⟨a, ⟨ha, by simp [hap]⟩, haq⟩

/-- A run of stroke messages appends their payloads to the Stroke Log in
arrival order, leaves the socket set unchanged, and issues the
per-message broadcasts in order. -/
theorem serverRun_strokes (msgs : List JVal) :
    ∀ st : ServerState,
      (∀ m ∈ msgs, jpropD m "type" = some (JVal.jstr "stroke") ∧
        jTruthyO (jpropD m "stroke") = true) →
      serverRun st (msgs.map some) =
        some ({ strokes := st.strokes ++ msgs.map strokeOf, clients := st.clients },
              serverOutsFor st.clients msgs) := by
  induction msgs with
  | nil => intro st h; simp [serverRun, serverOutsFor]
  | cons m ms ih =>
    intro st h
    obtain ⟨ht, hs⟩ := h m (List.mem_cons_self m ms)
    have hstep := serverHandleMessage_stroke st m ht hs
    have hih := ih { strokes := st.strokes ++ [strokeOf m], clients := st.clients }
      (fun x hx => h x (List.mem_cons_of_mem m hx))
    simp only [List.map_cons, serverRun, hstep, hih, serverOutsFor]
    simp [List.append_assoc]

/-- A client processing a sequence of relayed truthy strokes appends them
to its history in that order and touches nothing else. -/
theorem clientRun_relays (svs : List JVal) :
    ∀ cst : ClientState, (∀ sv ∈ svs, jTruthy sv = true) →
      clientRun cst (svs.map (fun sv => some (relayMsg sv))) =
        { strokes := cst.strokes ++ svs, remoteStrokes := cst.remoteStrokes,
          selfId := cst.selfId } := by
  induction svs with
  | nil => intro cst h; simp [clientRun]
  | cons sv svs ih =>
    intro cst h
    simp only [List.map_cons, clientRun,
      clientHandle_relay cst sv (h sv (List.mem_cons_self sv svs))]
    rw [ih _ (fun x hx => h x (List.mem_cons_of_mem sv hx))]
    simp

/-- Across a whole run of stroke messages, an open participant with a
unique socket id is delivered exactly the relay payloads, in the order of
the server appends. -/
theorem sentTo_serverOutsFor (cs : List SClient) (c : SClient) (hc : c ∈ cs)
    (hopen : c.isOpen = true) (hnd : (cs.map SClient.cid).Nodup) (msgs : List JVal) :
    sentTo c.cid (serverOutsFor cs msgs) = (msgs.map strokeOf).map relayMsg := by
  induction msgs with
  | nil => simp [serverOutsFor, sentTo]
  | cons m ms ih =>
    simp only [serverOutsFor, sentTo_append, sentTo_broadcastOuts cs c hc hnd,
      hopen, List.map_cons, if_true]
    rw [ih]
    simp

/-! # The claims -/

/-- C1: the claim says that for every stroke-update (preview) message the
server receives from a sender, it forwards the ephemeral stroke snapshot
to all connected participants except the sender. The server message
handler has no stroke-update branch at all: for every state and every
preview message it leaves the state unchanged and produces zero outbound
messages, so the preview is forwarded to nobody (while the suppression
half holds only vacuously, plus through the client-side clientId guard). -/
theorem c1_server_drops_preview (st : ServerState) (sv : JVal) (cid : String) :
    serverHandleMessage st (some (strokeUpdateMsg sv cid)) = some (st, []) := by
  refine serverHandleMessage_noop st _ (by simp [strokeUpdateMsg]) ?_
  intro hcond
  have h1 : jpropD (strokeUpdateMsg sv cid) "type" =
      some (JVal.jstr "stroke-update") := rfl
  rw [h1] at hcond
  exact absurd hcond.1 (by simp)

/-- C2: the claim says a delivered finalized stroke from sender S removes
the S entry of the receiving Preview Table. The relay the server actually
emits for a finalization carries no clientId, so the cleanup line on the
client never fires: a participant whose Preview Table holds the entry for
"a1" still holds it, unchanged, after processing the very relay payload
the server produced for that sender's finalization. -/
theorem c2_preview_entry_survives_finalization :
    serverHandleMessage twoClientServer (some (clientStrokeMsg sampleStroke2 "a1")) =
      some ({ strokes := [sampleStroke2], clients := twoClientServer.clients },
            [(0, relayMsg sampleStroke2), (1, relayMsg sampleStroke2)]) ∧
    (clientRun clientB
        [some (strokeUpdateMsg sampleStroke "a1"),
         some (relayMsg sampleStroke2)]).remoteStrokes =
      [(JVal.jstr "a1", sampleStroke)] ∧
    mapHas (clientRun clientB
        [some (strokeUpdateMsg sampleStroke "a1"),
         some (relayMsg sampleStroke2)]).remoteStrokes (JVal.jstr "a1") = true := by
  decide

/-- C3: the claim says a server-relayed finalized stroke originating from
a client carries the originating sender's identifier. The inbound message
carries clientId "a1", yet the relay payload the server broadcasts is
`{type: "stroke", stroke}` with no clientId and no senderId field. -/
theorem c3_relay_lacks_sender_id (st : ServerState) (sv : JVal) (cid : String)
    (hsv : jTruthy sv = true) :
    serverHandleMessage st (some (clientStrokeMsg sv cid)) =
      some ({ strokes := st.strokes ++ [sv], clients := st.clients },
            broadcastOuts st.clients sv) ∧
    jpropD (relayMsg sv) "clientId" = none ∧
    jpropD (relayMsg sv) "senderId" = none := by
  have hst : strokeOf (clientStrokeMsg sv cid) = sv := rfl
  refine ⟨?_, rfl, rfl⟩
  have hmain := serverHandleMessage_stroke st (clientStrokeMsg sv cid) rfl hsv
  rwa [hst] at hmain

/-- Witness: C3 at a concrete two-participant server and stroke. -/
theorem c3_relay_lacks_sender_id_witness :
    jTruthy sampleStroke = true ∧
    (serverHandleMessage twoClientServer (some (clientStrokeMsg sampleStroke "a1")) =
      some ({ strokes := twoClientServer.strokes ++ [sampleStroke],
              clients := twoClientServer.clients },
            broadcastOuts twoClientServer.clients sampleStroke) ∧
     jpropD (relayMsg sampleStroke) "clientId" = none ∧
     jpropD (relayMsg sampleStroke) "senderId" = none) :=
  ⟨by decide, c3_relay_lacks_sender_id twoClientServer sampleStroke "a1" (by decide)⟩

/-- C4: append-order convergence. For any sequence of finalized-stroke
messages arriving at the server, the run appends exactly their payloads
to the Stroke Log in arrival order (the log never shrinks or reorders:
the final log is the initial log extended on the right, and the same
theorem applied to every prefix gives every intermediate log), and a
participant with an open, uniquely identified socket that is connected
before and throughout is delivered exactly the relay payloads in append
order and ends with its history equal to its old history extended by the
same strokes in the same order. -/
theorem c4_append_order_convergence (st : ServerState) (msgs : List JVal)
    (hmsgs : ∀ m ∈ msgs, jpropD m "type" = some (JVal.jstr "stroke") ∧
        jTruthyO (jpropD m "stroke") = true)
    (c : SClient) (hc : c ∈ st.clients) (hopen : c.isOpen = true)
    (hnd : (st.clients.map SClient.cid).Nodup) (cst : ClientState) :
    serverRun st (msgs.map some) =
      some ({ strokes := st.strokes ++ msgs.map strokeOf, clients := st.clients },
            serverOutsFor st.clients msgs) ∧
    sentTo c.cid (serverOutsFor st.clients msgs) =
      (msgs.map strokeOf).map relayMsg ∧
    clientRun cst ((sentTo c.cid (serverOutsFor st.clients msgs)).map some) =
      { strokes := cst.strokes ++ msgs.map strokeOf,
        remoteStrokes := cst.remoteStrokes, selfId := cst.selfId } := by
  have h2 := sentTo_serverOutsFor st.clients c hc hopen hnd msgs
  refine ⟨serverRun_strokes msgs st hmsgs, h2, ?_⟩
  rw [h2, List.map_map]
  have htr : ∀ sv ∈ msgs.map strokeOf, jTruthy sv = true := by
    intro sv hsv
    obtain ⟨m, hm, rfl⟩ := List.mem_map.mp hsv
    exact (jTruthyO_getD _ (hmsgs m hm).2).2
  exact clientRun_relays _ cst htr

/-- Witness: C4 on a two-message run against the two-participant server,
observed by the participant with socket id 1. -/
theorem c4_append_order_convergence_witness :
    serverRun twoClientServer
        ([clientStrokeMsg sampleStroke "a1", clientStrokeMsg sampleStroke2 "a1"].map some) =
      some ({ strokes := twoClientServer.strokes ++
                [clientStrokeMsg sampleStroke "a1",
                 clientStrokeMsg sampleStroke2 "a1"].map strokeOf,
              clients := twoClientServer.clients },
            serverOutsFor twoClientServer.clients
              [clientStrokeMsg sampleStroke "a1", clientStrokeMsg sampleStroke2 "a1"]) ∧
    sentTo 1 (serverOutsFor twoClientServer.clients
        [clientStrokeMsg sampleStroke "a1", clientStrokeMsg sampleStroke2 "a1"]) =
      ([clientStrokeMsg sampleStroke "a1",
        clientStrokeMsg sampleStroke2 "a1"].map strokeOf).map relayMsg ∧
    clientRun clientB ((sentTo 1 (serverOutsFor twoClientServer.clients
        [clientStrokeMsg sampleStroke "a1", clientStrokeMsg sampleStroke2 "a1"])).map some) =
      { strokes := clientB.strokes ++
          [clientStrokeMsg sampleStroke "a1", clientStrokeMsg sampleStroke2 "a1"].map strokeOf,
        remoteStrokes := clientB.remoteStrokes, selfId := clientB.selfId } :=
  c4_append_order_convergence twoClientServer
    [clientStrokeMsg sampleStroke "a1", clientStrokeMsg sampleStroke2 "a1"]
    (by decide) { cid := 1, isOpen := true } (by decide) rfl (by decide) clientB

/-- C5: late-join consistency. A fresh socket id receives nothing from any
message handled before it joins; the connection event registers the
socket and delivers to it, synchronously and as the only message of that
event, the history snapshot holding exactly the current Stroke Log in
order; and a client processing that snapshot replaces its history pool
wholesale with it and clears its Preview Table. -/
theorem c5_late_join_consistency (st : ServerState) (c : SClient)
    (hfresh : c.cid ∉ st.clients.map SClient.cid) (raw : Option JVal)
    (cst : ClientState) :
    (serverHandleMessage st raw).elim True (fun res => sentTo c.cid res.2 = []) ∧
    serverHandleConnection st c =
      ({ strokes := st.strokes, clients := st.clients ++ [c] },
       [(c.cid, historyMsg st.strokes)]) ∧
    clientHandle cst (some (historyMsg st.strokes)) =
      { strokes := st.strokes, remoteStrokes := [], selfId := cst.selfId } :=
  ⟨serverHandleMessage_no_send_to_stranger st raw c.cid hfresh, rfl,
   clientHandle_history cst st.strokes⟩

/-- Witness: C5 with a two-stroke history, the fresh socket id 5, and a
joining client that held stale strokes and a stale preview. -/
theorem c5_late_join_consistency_witness :
    (5 ∉ serverWithHistory.clients.map SClient.cid) ∧
    ((serverHandleMessage serverWithHistory
        (some (clientStrokeMsg sampleStroke "a1"))).elim True
        (fun res => sentTo 5 res.2 = []) ∧
     serverHandleConnection serverWithHistory { cid := 5, isOpen := true } =
      ({ strokes := serverWithHistory.strokes,
         clients := serverWithHistory.clients ++ [{ cid := 5, isOpen := true }] },
       [(5, historyMsg serverWithHistory.strokes)]) ∧
     clientHandle staleClient (some (historyMsg serverWithHistory.strokes)) =
      { strokes := serverWithHistory.strokes, remoteStrokes := [],
        selfId := staleClient.selfId }) :=
  ⟨by decide, c5_late_join_consistency serverWithHistory
    { cid := 5, isOpen := true } (by decide)
    (some (clientStrokeMsg sampleStroke "a1")) staleClient⟩

/-- C6: the claim says ending a gesture by pointer release or pointer
cancel stops the 250ms preview timer, that exactly one finalized-stroke
message is then emitted, and that the timer never fires again. The
pointercancel handler only deletes the pointer from the active-pointer
map: after cancelling the only active pointer (the gesture is over, no
pointer remains), the interval id is still stored and still live, the
in-progress stroke is still referenced, no finalized-stroke message was
emitted (the handler produces no sends), and the next timer tick still
emits a stroke-update preview. -/
theorem c6_pointercancel_leaves_timer_live :
    (pointercancel gestureStart 1).activePointers = [] ∧
    (pointercancel gestureStart 1).updateInterval = some 7 ∧
    (pointercancel gestureStart 1).liveIntervals = [7] ∧
    (pointercancel gestureStart 1).currentStroke =
      some { points := [{ x := 10, y := 20 }], color := "#abc123", width := 3 } ∧
    timerFire (pointercancel gestureStart 1) "a1" =
      [ClientSend.strokeUpdate
        { points := [{ x := 10, y := 20 }], color := "#abc123", width := 3 } "a1"] := by
  decide

/-- C7: the claim says every non-JSON or missing-field inbound message
leaves the Stroke Log unchanged, produces no outbound message and does
not crash the server. A parse failure and a missing stroke field are
indeed silently dropped, but the JSON text "null" parses successfully to
null, and the `data.type` access sits outside the try/catch: property
access on null throws an uncaught TypeError (modelled as the handler
returning none), crashing the process. -/
theorem c7_null_payload_crashes_server :
    serverHandleMessage twoClientServer none = some (twoClientServer, []) ∧
    serverHandleMessage twoClientServer (some missingFieldMsg) =
      some (twoClientServer, []) ∧
    serverHandleMessage twoClientServer (some JVal.jnull) = none := by decide

/-- C8 counterexample: the claim says a stroke payload is appended if and
only if it is a structurally well-formed Stroke. The JSON number 42 is
not a well-formed Stroke (while sampleStroke is, showing the checker is
not degenerate), yet the server appends it and broadcasts it. -/
theorem c8_nonstroke_payload_appended :
    wellFormedStroke (JVal.jnum 42) = false ∧
    wellFormedStroke sampleStroke = true ∧
    serverHandleMessage twoClientServer
        (some (clientStrokeMsg (JVal.jnum 42) "a1")) =
      some ({ strokes := [JVal.jnum 42], clients := twoClientServer.clients },
            [(0, relayMsg (JVal.jnum 42)), (1, relayMsg (JVal.jnum 42))]) := by decide

/-- C8 as amended: for every non-null parsed message, the carried payload
is appended to the Stroke Log (and broadcast) if and only if the message
type is "stroke" and the stroke field is truthy; no structural
well-formedness validation is performed. Messages failing the guard are
silently dropped with no state change and no reply. -/
theorem c8_append_guard_truthiness (st : ServerState) (data : JVal)
    (hnn : data ≠ JVal.jnull) :
    ((jpropD data "type" = some (JVal.jstr "stroke") ∧
        jTruthyO (jpropD data "stroke") = true) →
      serverHandleMessage st (some data) =
        some ({ strokes := st.strokes ++ [strokeOf data], clients := st.clients },
              broadcastOuts st.clients (strokeOf data))) ∧
    (¬ (jpropD data "type" = some (JVal.jstr "stroke") ∧
        jTruthyO (jpropD data "stroke") = true) →
      serverHandleMessage st (some data) = some (st, [])) :=
  ⟨fun h => serverHandleMessage_stroke st data h.1 h.2,
   fun h => serverHandleMessage_noop st data hnn h⟩

/-- Witness: C8 amended, instantiated at the truthy non-Stroke payload 42. -/
theorem c8_append_guard_truthiness_witness :
    (clientStrokeMsg (JVal.jnum 42) "a1" ≠ JVal.jnull) ∧
    ((jpropD (clientStrokeMsg (JVal.jnum 42) "a1") "type" =
        some (JVal.jstr "stroke") ∧
      jTruthyO (jpropD (clientStrokeMsg (JVal.jnum 42) "a1") "stroke") = true →
      serverHandleMessage twoClientServer (some (clientStrokeMsg (JVal.jnum 42) "a1")) =
        some ({ strokes := twoClientServer.strokes ++
                  [strokeOf (clientStrokeMsg (JVal.jnum 42) "a1")],
                clients := twoClientServer.clients },
              broadcastOuts twoClientServer.clients
                (strokeOf (clientStrokeMsg (JVal.jnum 42) "a1")))) ∧
     (¬ (jpropD (clientStrokeMsg (JVal.jnum 42) "a1") "type" =
          some (JVal.jstr "stroke") ∧
         jTruthyO (jpropD (clientStrokeMsg (JVal.jnum 42) "a1") "stroke") = true) →
      serverHandleMessage twoClientServer (some (clientStrokeMsg (JVal.jnum 42) "a1")) =
        some (twoClientServer, []))) :=
  ⟨by decide, c8_append_guard_truthiness twoClientServer
    (clientStrokeMsg (JVal.jnum 42) "a1") (by decide)⟩

/-- C9: on a successful append the server produces exactly one outbound
relay per currently open socket (count equal to the open-socket count);
any connected participant, the originating sender included, is delivered
exactly one copy when open and none when not open; and dropping the sends
addressed to any other socket (one whose transport failed and was
skipped) leaves the deliveries to this participant unchanged. -/
theorem c9_fanout_per_open_client (st : ServerState) (m : JVal)
    (ht : jpropD m "type" = some (JVal.jstr "stroke"))
    (hs : jTruthyO (jpropD m "stroke") = true)
    (hnd : (st.clients.map SClient.cid).Nodup)
    (c : SClient) (hc : c ∈ st.clients) (k : Nat) (hk : ¬ (k = c.cid)) :
    serverHandleMessage st (some m) =
      some ({ strokes := st.strokes ++ [strokeOf m], clients := st.clients },
            broadcastOuts st.clients (strokeOf m)) ∧
    (broadcastOuts st.clients (strokeOf m)).length =
      (st.clients.filter (fun a => a.isOpen)).length ∧
    sentTo c.cid (broadcastOuts st.clients (strokeOf m)) =
      (if c.isOpen then [relayMsg (strokeOf m)] else []) ∧
    sentTo c.cid ((broadcastOuts st.clients (strokeOf m)).filter
        (fun p => ¬ (p.1 = k))) =
      sentTo c.cid (broadcastOuts st.clients (strokeOf m)) := by
  refine ⟨serverHandleMessage_stroke st m ht hs, ?_,
    sentTo_broadcastOuts st.clients c hc hnd (strokeOf m),
    sentTo_filter_ne k c.cid hk (broadcastOuts st.clients (strokeOf m))⟩
  simp [broadcastOuts]

/-- Witness: C9 against a server with open sockets 0 and 1 and the
non-open socket 2, observing the originating sender socket 0 while
socket 1 is the dropped recipient. -/
theorem c9_fanout_per_open_client_witness :
    jpropD (clientStrokeMsg sampleStroke "a1") "type" =
      some (JVal.jstr "stroke") ∧
    (serverHandleMessage threeClientServer (some (clientStrokeMsg sampleStroke "a1")) =
      some ({ strokes := threeClientServer.strokes ++
                [strokeOf (clientStrokeMsg sampleStroke "a1")],
              clients := threeClientServer.clients },
            broadcastOuts threeClientServer.clients
              (strokeOf (clientStrokeMsg sampleStroke "a1"))) ∧
     (broadcastOuts threeClientServer.clients
        (strokeOf (clientStrokeMsg sampleStroke "a1"))).length =
      (threeClientServer.clients.filter (fun a => a.isOpen)).length ∧
     sentTo 0 (broadcastOuts threeClientServer.clients
        (strokeOf (clientStrokeMsg sampleStroke "a1"))) =
      (if ({ cid := 0, isOpen := true } : SClient).isOpen
       then [relayMsg (strokeOf (clientStrokeMsg sampleStroke "a1"))] else []) ∧
     sentTo 0 ((broadcastOuts threeClientServer.clients
          (strokeOf (clientStrokeMsg sampleStroke "a1"))).filter
        (fun p => ¬ (p.1 = 1))) =
      sentTo 0 (broadcastOuts threeClientServer.clients
        (strokeOf (clientStrokeMsg sampleStroke "a1")))) :=
  ⟨by decide, c9_fanout_per_open_client threeClientServer
    (clientStrokeMsg sampleStroke "a1") rfl (by decide) (by decide)
    { cid := 0, isOpen := true } (by decide) 1 (by decide)⟩

/-- C10: with a stroke in progress and two distinct pointers down,
releasing either one of them (here the pointer p, which hp allows to be
either the stroke-initiating pointer or the second one) emits the
finalized-stroke message carrying the in-progress stroke and discards the
in-progress stroke reference, even though the other pointer q is still in
the active-pointer map afterwards. -/
theorem c10_any_pointerup_finalizes (g : GestureState) (s : Stroke)
    (hs : g.currentStroke = some s) (p q : Nat) (hpq : ¬ (p = q))
    (hp : g.activePointers.any (fun a => a.1 = p) = true)
    (hq : g.activePointers.any (fun a => a.1 = q) = true) (cid : String) :
    (pointerup g p cid).2 = [ClientSend.strokeFinal s cid] ∧
    (pointerup g p cid).1.currentStroke = none ∧
    (pointerup g p cid).1.activePointers.any (fun a => a.1 = q) = true := by
  have hkeep := any_mapDelete g.activePointers p q hpq hq
  cases hup : g.updateInterval with
  | none => simp [pointerup, hs, hup, hkeep]
  | some tid =>
    by_cases h0 : tid = 0 <;> simp [pointerup, hs, hup, h0, hkeep]

/-- Witness: C10 releasing pointer 2 (the non-initiating pinch pointer)
while pointer 1 is still down. -/
theorem c10_any_pointerup_finalizes_witness :
    gTwoPointers.currentStroke =
      some { points := [{ x := 0, y := 0 }], color := "#ff0000", width := 3 } ∧
    ((pointerup gTwoPointers 2 "a1").2 =
      [ClientSend.strokeFinal
        { points := [{ x := 0, y := 0 }], color := "#ff0000", width := 3 } "a1"] ∧
     (pointerup gTwoPointers 2 "a1").1.currentStroke = none ∧
     (pointerup gTwoPointers 2 "a1").1.activePointers.any (fun a => a.1 = 1) = true) :=
  ⟨by decide, c10_any_pointerup_finalizes gTwoPointers
    { points := [{ x := 0, y := 0 }], color := "#ff0000", width := 3 } rfl 2 1
    (by decide) (by decide) (by decide) "a1"⟩

end DrawTogether
